import Mathlib

/-!
# Verification of the primapp commission engine

Shallow embedding of the pure commission-computation core of `app.py`
(sales-commission engine): cost/margin computation, commission-rate
selection, target-factor resolution, quarter derivation, the quarterly
aggregator, and the reason-code derivation.

Modelling conventions:
* Python floats are modelled as rationals (`ℚ`); the claims under test are
  about exact decimal values and order comparisons, which agree with float
  semantics on the inputs considered.
* Python `Optional` values (SQL `NULL`s) are modelled as `Option`.
* Python truthiness on optional strings (`None` and `""` are falsy) is
  modelled by `truthyStr`.
* Python `str.strip` / `str.lower` are modelled on the ASCII fragment
  (`pyStrip` / `pyLower`); all job-type values in the system are ASCII.
* Python string comparison (`max` on `str`) compares by code points, which
  is `lexLtChars` on the underlying character lists.
-/

namespace Primapp

/-- Python truthiness of an optional string: `None` and `""` are falsy. -/
def truthyStr : Option String → Bool
  | none => false
  | some s => !s.isEmpty

/-- `MIN_MARGIN = 0.20` from `app.py`. -/
def MIN_MARGIN : ℚ := 1/5

/-- `pct_to_rate` from `app.py`: a percentage is turned into a fraction
(`(pct or 0.0) / 100.0`; the `or 0.0` only replaces `0.0` by itself). -/
def pct_to_rate (pct : ℚ) : ℚ := pct / 100

/-- `eur_from_tl` from `app.py`: convert a secondary-currency (TL) amount to
the reference currency by dividing by the manual rate; a missing amount, a
missing rate or a zero rate contributes `0`. -/
def eur_from_tl (tl kur : Option ℚ) : ℚ :=
  match tl, kur with
  | none, _ => 0
  | _, none => 0
  | some t, some k => if k = 0 then 0 else t / k

/-- ASCII whitespace test, modelling the characters `str.strip` removes for
the ASCII strings stored in the `job_type` column. -/
def isSpaceChar (c : Char) : Bool :=
  c == ' ' || c == '\t' || c == '\n' || c == '\r' || c == '\x0b' || c == '\x0c'

/-- Python `str.strip()` on the ASCII fragment. -/
def pyStrip (s : String) : String :=
  ⟨((s.data.dropWhile isSpaceChar).reverse.dropWhile isSpaceChar).reverse⟩

/-- Lower-case one character (ASCII fragment of Python `str.lower()`). -/
def lowerChar (c : Char) : Char :=
  if 65 ≤ c.toNat ∧ c.toNat ≤ 90 then Char.ofNat (c.toNat + 32) else c

/-- Python `str.lower()` on the ASCII fragment. -/
def pyLower (s : String) : String := ⟨s.data.map lowerChar⟩

/-- Code-point lexicographic comparison of character lists; this is Python's
(and SQLite's BINARY) string ordering. -/
def lexLtChars : List Char → List Char → Bool
  | [], [] => false
  | [], _ :: _ => true
  | _ :: _, [] => false
  | a :: as, b :: bs => if a < b then true else if b < a then false else lexLtChars as bs

/-- `a < b` for strings in Python's ordering. -/
def strLt (a b : String) : Bool := lexLtChars a.data b.data

/-- Python `max(a, b)` on strings: returns `a` when the two are equal. -/
def pyMax (a b : String) : String := if strLt a b then b else a

/-- `later_date` from `app.py`: the later of two optional date strings,
with Python truthiness (`None`/`""` falsy). -/
def later_date (a b : Option String) : Option String :=
  if truthyStr a = false ∧ truthyStr b = false then none
  else if truthyStr a = true ∧ truthyStr b = false then a
  else if truthyStr b = true ∧ truthyStr a = false then b
  else some (pyMax (a.getD "") (b.getD ""))

/-- Decimal digit test on characters. -/
def isDigitChar (c : Char) : Bool := 48 ≤ c.toNat && c.toNat ≤ 57

/-- Numeric value of a digit character. -/
def charDigit (c : Char) : ℕ := c.toNat - 48

/-- Parse a canonical ISO `YYYY-MM-DD` string into `(year, month, day)`,
modelling `datetime.fromisoformat(...).date()` on the canonical strings
produced by `parse_date` (anything else raises in Python; here it is
`none`, which no claim depends on). -/
def parseIsoYMD (s : String) : Option (ℕ × ℕ × ℕ) :=
  match s.data with
  | [y1, y2, y3, y4, h1, m1, m2, h2, d1, d2] =>
    if isDigitChar y1 && isDigitChar y2 && isDigitChar y3 && isDigitChar y4 &&
       h1 == '-' && isDigitChar m1 && isDigitChar m2 && h2 == '-' &&
       isDigitChar d1 && isDigitChar d2 then
      let y := 1000 * charDigit y1 + 100 * charDigit y2 + 10 * charDigit y3 + charDigit y4
      let m := 10 * charDigit m1 + charDigit m2
      let d := 10 * charDigit d1 + charDigit d2
      if 1 ≤ m && m ≤ 12 && 1 ≤ d && d ≤ 31 then some (y, m, d) else none
    else none
  | _ => none

/-- `quarter_from_iso` from `app.py`: derive the quarter string
`f"{year}-Q{(month-1)//3+1}"` from an ISO date, `None` for a falsy input. -/
def quarter_from_iso (o : Option String) : Option String :=
  if truthyStr o = false then none
  else
    match parseIsoYMD (o.getD "") with
    | none => none
    | some (y, m, _) => some (toString y ++ "-Q" ++ toString ((m - 1) / 3 + 1))

/-- `commission_rate` from `app.py`: `None` margin gives rate `0`; a job
whose type strips/lowers to `"standart"` gets the standard rate iff the
margin reaches `MIN_MARGIN` and `0` otherwise; any other job type gets the
project rate at or above `MIN_MARGIN` and the linearly scaled-down
`prj * (margin / MIN_MARGIN)` below it. -/
def commission_rate (margin : Option ℚ) (job_type : String) (std_pct prj_pct : ℚ) : ℚ :=
  match margin with
  | none => 0
  | some m =>
    let jt := pyLower (pyStrip job_type)
    let std := pct_to_rate std_pct
    let prj := pct_to_rate prj_pct
    if jt = "standart" then
      if m < MIN_MARGIN then 0 else std
    else if MIN_MARGIN ≤ m then prj
    else if 0 < MIN_MARGIN then prj * (m / MIN_MARGIN) else 0

/-- `seller_target_factor` from `app.py`. Targets and totals maps are
modelled as functions from `(seller, quarter)` to an optional amount
(`dict.get`). The Python guard `if not tgt or tgt <= 0` is `tgt = 0 ∨ tgt ≤ 0`
on a present value; `if not quarter` is falsiness of the optional quarter. -/
def seller_target_factor (seller : String) (quarter : Option String)
    (totals targets : String × String → Option ℚ) : ℚ :=
  if truthyStr quarter = false then 0
  else
    let q := quarter.getD ""
    match targets (seller, q) with
    | none => 0
    | some tgt =>
      if tgt = 0 ∨ tgt ≤ 0 then 0
      else
        let total := (totals (seller, q)).getD 0
        let r := if 0 < tgt then total / tgt else 0
        if 1 ≤ r then 1
        else if 4/5 ≤ r then 1/2
        else 0

/-- A sale row, with the fields `compute_sale_metrics` and the quarterly
aggregator read (nullable columns are `Option`). -/
structure Sale where
  seller_username : String
  job_type : Option String
  collection_done_date : Option String
  delivery_done_date : Option String
  sale_eur : Option ℚ
  purchase_eur : Option ℚ
  international_shipping_eur : Option ℚ
  local_kur : Option ℚ
  ic_nakliye_tl : Option ℚ
  gumruk_vergisi_tl : Option ℚ
  ek_gumruk_tl : Option ℚ
  gumruk_masraf_tl : Option ℚ
  komisyon_tl : Option ℚ
  diger_tl : Option ℚ

/-- The metrics record returned by `compute_sale_metrics`. -/
structure Metrics where
  sale_eur : ℚ
  total_cost : ℚ
  profit : ℚ
  margin : Option ℚ
  eligible : Bool
  hak_tarih : Option String
  quarter : Option String
  target_factor : ℚ
  rate : ℚ
  seller_comm : ℚ
  override : ℚ
  reason : String

/-- Reason string: sale not eligible (no attribution yet). -/
def reasonNoHak : String := "Hakediş yok (tahsilat + teslim tamam değil)."

/-- Reason string: no derivable quarter. -/
def reasonNoQuarter : String := "Hakediş çeyreği bulunamadı."

/-- Reason string: no positive target configured for the quarter. -/
def reasonNoTarget : String := "Bu çeyrek hedefi girilmedi (hedef yoksa prim yok)."

/-- Reason string: target factor is zero (below 80 percent of target). -/
def reasonBelowTarget : String := "Hedef %80 altı (prim yok)."

/-- Reason string: standard job with margin below 20 percent. -/
def reasonMarginLow : String := "Standart işte kârlılık %20 altı (prim yok)."

/-- Reason string: commission accrues. -/
def reasonAccrues : String := "Prim doğar (hakediş + hedef + kârlılık koşulları sağlandı)."

/-- Does the job type strip/lower to `"standart"`? -/
def isStandartB (jt : String) : Bool := pyLower (pyStrip jt) == "standart"

/-- Is the margin present and below `MIN_MARGIN`
(`(margin is not None) and margin < MIN_MARGIN`)? -/
def marginBelowB (margin : Option ℚ) : Bool :=
  match margin with
  | none => false
  | some m => decide (m < MIN_MARGIN)

/-- The reason-code derivation from the tail of `compute_sale_metrics`,
with the intermediate values it branches on made explicit arguments. -/
def reason_of (eligible : Bool) (quarter : Option String) (seller : String)
    (targets : String × String → Option ℚ) (factor : ℚ) (margin : Option ℚ)
    (jt : String) : String :=
  if eligible = false then reasonNoHak
  else
    match quarter with
    | none => reasonNoQuarter
    | some q =>
      match targets (seller, q) with
      | none => reasonNoTarget
      | some tgt =>
        if tgt = 0 ∨ tgt ≤ 0 then reasonNoTarget
        else if factor = 0 then reasonBelowTarget
        else if isStandartB jt && marginBelowB margin then reasonMarginLow
        else reasonAccrues

/-- `compute_sale_metrics` from `app.py`, with the rate configuration passed
explicitly instead of read from the settings store. -/
def compute_sale_metrics (std_pct prj_pct ovr_pct : ℚ) (r : Sale)
    (totals targets : String × String → Option ℚ) : Metrics :=
  let sale_eur := (r.sale_eur).getD 0
  let purchase_eur := (r.purchase_eur).getD 0
  let intl := (r.international_shipping_eur).getD 0
  let local_kur := r.local_kur
  let local_sum := eur_from_tl r.ic_nakliye_tl local_kur
    + eur_from_tl r.gumruk_vergisi_tl local_kur
    + eur_from_tl r.ek_gumruk_tl local_kur
    + eur_from_tl r.gumruk_masraf_tl local_kur
    + eur_from_tl r.komisyon_tl local_kur
    + eur_from_tl r.diger_tl local_kur
  let total_cost := purchase_eur + intl + local_sum
  let profit := sale_eur - total_cost
  let margin : Option ℚ := if 0 < sale_eur then some (profit / sale_eur) else none
  let eligible := truthyStr r.collection_done_date && truthyStr r.delivery_done_date
  let hak_tarih := if eligible then later_date r.collection_done_date r.delivery_done_date else none
  let quarter := if truthyStr hak_tarih then quarter_from_iso hak_tarih else none
  let rate := commission_rate margin (r.job_type.getD "") std_pct prj_pct
  let factor := seller_target_factor r.seller_username quarter totals targets
  let seller_comm := if eligible then sale_eur * rate * factor else 0
  let override := if eligible && (r.seller_username == "pinar" || r.seller_username == "burcu")
    then sale_eur * pct_to_rate ovr_pct * factor else 0
  { sale_eur := sale_eur, total_cost := total_cost, profit := profit, margin := margin,
    eligible := eligible, hak_tarih := hak_tarih, quarter := quarter, target_factor := factor,
    rate := rate, seller_comm := seller_comm, override := override,
    reason := reason_of eligible quarter r.seller_username targets factor margin
      (r.job_type.getD "") }

/-- `max(collection_done_date, delivery_done_date)` from the aggregator SQL
(SQLite two-argument `max`, BINARY collation). -/
def sqlHakDate (s : Sale) : String :=
  pyMax (s.collection_done_date.getD "") (s.delivery_done_date.getD "")

/-- Leading-digits accumulator for SQLite `CAST(text AS INTEGER)`. -/
def leadDigitsAux : List Char → ℕ → ℕ
  | [], acc => acc
  | c :: cs, acc => if isDigitChar c then leadDigitsAux cs (10 * acc + charDigit c) else acc

/-- SQLite `CAST(text AS INTEGER)` on the non-negative texts the aggregator
produces: the value of the leading digit run. -/
def castNat (t : String) : ℕ := leadDigitsAux t.data 0

/-- The quarter key the aggregator SQL computes from the attribution date:
`substr(hak,1,4) || '-Q' || ((CAST(substr(hak,6,2) AS INTEGER) - 1) / 3 + 1)`. -/
def sqlQuarterOf (hak : String) : String :=
  let m := castNat ⟨(hak.data.drop 5).take 2⟩
  (⟨hak.data.take 4⟩ : String) ++ "-Q" ++ toString ((m - 1) / 3 + 1)

/-- The aggregator's `WHERE` clause plus `GROUP BY` key match: both
completion dates non-null and non-empty, a non-null sale price, and the
seller and derived quarter equal to the group key. -/
def attributedTo (s : Sale) (u q : String) : Bool :=
  truthyStr s.collection_done_date && truthyStr s.delivery_done_date &&
  s.sale_eur.isSome && s.seller_username == u && sqlQuarterOf (sqlHakDate s) == q

/-- `SUM(sale_eur)` of the group `(u, q)` in `fetch_eligible_sales_totals`. -/
def fetch_total (sales : List Sale) (u q : String) : ℚ :=
  ((sales.filter fun s => attributedTo s u q).map fun s => (s.sale_eur).getD 0).sum

/-- The totals dictionary entry for `(u, q)`: absent when no sale is
attributed to the pair, otherwise the group sum. -/
def fetch_totalOpt (sales : List Sale) (u q : String) : Option ℚ :=
  if (sales.filter fun s => attributedTo s u q).isEmpty then none
  else some (fetch_total sales u q)

/-- A calendar date as year, month, day. -/
structure YMDDate where
  y : ℕ
  m : ℕ
  d : ℕ

/-- Validity bounds for an ISO-representable calendar date. -/
def validYMD (a : YMDDate) : Prop :=
  a.y ≤ 9999 ∧ 1 ≤ a.m ∧ a.m ≤ 12 ∧ 1 ≤ a.d ∧ a.d ≤ 31

/-- The digit character of `n mod 10`. -/
def digitChar (n : ℕ) : Char := Char.ofNat (48 + n % 10)

/-- The character list of the ISO `YYYY-MM-DD` rendering of a date. -/
def isoChars (a : YMDDate) : List Char :=
  [digitChar (a.y / 1000), digitChar (a.y / 100), digitChar (a.y / 10), digitChar a.y,
   '-', digitChar (a.m / 10), digitChar a.m, '-', digitChar (a.d / 10), digitChar a.d]

/-- The ISO `YYYY-MM-DD` string of a date. -/
def toIso (a : YMDDate) : String := ⟨isoChars a⟩

/-- Chronological (strict) order on dates. -/
def chronLt (a b : YMDDate) : Prop :=
  a.y < b.y ∨ (a.y = b.y ∧ (a.m < b.m ∨ (a.m = b.m ∧ a.d < b.d)))

instance (a b : YMDDate) : Decidable (chronLt a b) := by
  unfold chronLt
  exact inferInstance

instance (a : YMDDate) : Decidable (validYMD a) := by
  unfold validYMD
  exact inferInstance

/-- A present value that is positive (the negation of the Python guard
`not tgt or tgt <= 0` on a `dict.get` result). -/
def posTarget : Option ℚ → Prop
  | none => False
  | some t => 0 < t

instance (o : Option ℚ) : Decidable (posTarget o) := by
  unfold posTarget
  cases o <;> exact inferInstance

section FieldEquations

variable (std_pct prj_pct ovr_pct : ℚ) (r : Sale) (totals targets : String × String → Option ℚ)

/-- The `sale_eur` field of the metrics is the null-coalesced sale price. -/
theorem metrics_sale_eur :
    (compute_sale_metrics std_pct prj_pct ovr_pct r totals targets).sale_eur
      = (r.sale_eur).getD 0 := rfl

/-- The `profit` field is sale price minus total cost. -/
theorem metrics_profit :
    (compute_sale_metrics std_pct prj_pct ovr_pct r totals targets).profit
      = (compute_sale_metrics std_pct prj_pct ovr_pct r totals targets).sale_eur
        - (compute_sale_metrics std_pct prj_pct ovr_pct r totals targets).total_cost := rfl

/-- The `margin` field is `profit / sale_eur` when the sale price is
positive and absent otherwise. -/
theorem metrics_margin :
    (compute_sale_metrics std_pct prj_pct ovr_pct r totals targets).margin
      = (if 0 < (compute_sale_metrics std_pct prj_pct ovr_pct r totals targets).sale_eur
         then some ((compute_sale_metrics std_pct prj_pct ovr_pct r totals targets).profit
            / (compute_sale_metrics std_pct prj_pct ovr_pct r totals targets).sale_eur)
         else none) := rfl

/-- The `eligible` field is truthiness of both completion dates. -/
theorem metrics_eligible :
    (compute_sale_metrics std_pct prj_pct ovr_pct r totals targets).eligible
      = (truthyStr r.collection_done_date && truthyStr r.delivery_done_date) := rfl

/-- The `hak_tarih` field is the later completion date when eligible. -/
theorem metrics_hak_tarih :
    (compute_sale_metrics std_pct prj_pct ovr_pct r totals targets).hak_tarih
      = (if (compute_sale_metrics std_pct prj_pct ovr_pct r totals targets).eligible
         then later_date r.collection_done_date r.delivery_done_date else none) := rfl

/-- The `quarter` field is derived from the attribution date. -/
theorem metrics_quarter :
    (compute_sale_metrics std_pct prj_pct ovr_pct r totals targets).quarter
      = (if truthyStr (compute_sale_metrics std_pct prj_pct ovr_pct r totals targets).hak_tarih
         then quarter_from_iso
            (compute_sale_metrics std_pct prj_pct ovr_pct r totals targets).hak_tarih
         else none) := rfl

/-- The `rate` field is `commission_rate` applied to the margin. -/
theorem metrics_rate :
    (compute_sale_metrics std_pct prj_pct ovr_pct r totals targets).rate
      = commission_rate (compute_sale_metrics std_pct prj_pct ovr_pct r totals targets).margin
          (r.job_type.getD "") std_pct prj_pct := rfl

/-- The `target_factor` field is `seller_target_factor` at the derived
quarter. -/
theorem metrics_target_factor :
    (compute_sale_metrics std_pct prj_pct ovr_pct r totals targets).target_factor
      = seller_target_factor r.seller_username
          (compute_sale_metrics std_pct prj_pct ovr_pct r totals targets).quarter
          totals targets := rfl

/-- The `seller_comm` field is `sale_eur * rate * target_factor` for an
eligible sale and `0` otherwise. -/
theorem metrics_seller_comm :
    (compute_sale_metrics std_pct prj_pct ovr_pct r totals targets).seller_comm
      = (if (compute_sale_metrics std_pct prj_pct ovr_pct r totals targets).eligible
         then (compute_sale_metrics std_pct prj_pct ovr_pct r totals targets).sale_eur
            * (compute_sale_metrics std_pct prj_pct ovr_pct r totals targets).rate
            * (compute_sale_metrics std_pct prj_pct ovr_pct r totals targets).target_factor
         else 0) := rfl

/-- The `reason` field is `reason_of` applied to the intermediate values. -/
theorem metrics_reason :
    (compute_sale_metrics std_pct prj_pct ovr_pct r totals targets).reason
      = reason_of (compute_sale_metrics std_pct prj_pct ovr_pct r totals targets).eligible
          (compute_sale_metrics std_pct prj_pct ovr_pct r totals targets).quarter
          r.seller_username targets
          (compute_sale_metrics std_pct prj_pct ovr_pct r totals targets).target_factor
          (compute_sale_metrics std_pct prj_pct ovr_pct r totals targets).margin
          (r.job_type.getD "") := rfl

end FieldEquations

/-- Claim C1: for a sale whose job type strips and lower-cases to the
standard-job marker (the string `"Standart"`, which the spec calls
"Standard"), the commission rate is the standard rate `std_pct / 100` when
the margin is at least `0.20`, and `0` when the margin is below `0.20`.
`commission_rate` takes no target-factor input, so the result is
independent of the target factor. -/
theorem commission_rate_standard (m std_pct prj_pct : ℚ) (jt : String)
    (h : pyLower (pyStrip jt) = "standart") :
    (MIN_MARGIN ≤ m → commission_rate (some m) jt std_pct prj_pct = std_pct / 100) ∧
    (m < MIN_MARGIN → commission_rate (some m) jt std_pct prj_pct = 0) := by
  constructor <;> intro hm
  · simp [commission_rate, h, pct_to_rate, not_lt.mpr hm]
  · simp [commission_rate, h, pct_to_rate, hm]

/-- Witness for C1 at margin `0.35`, job type `"Standart"`, standard rate 3. -/
theorem commission_rate_standard_witness :
    commission_rate (some (35/100)) "Standart" 3 3 = 3 / 100 :=
  (commission_rate_standard (35/100) 3 3 "Standart" (by decide)).1
    (by norm_num [MIN_MARGIN])

/-- Claim C2: for a sale whose job type does not strip/lower-case to the
standard-job marker (so `"Proje"` or anything else), with a defined margin:
margin at least `0.20` (the boundary included) gives the full project rate
`prj_pct / 100`, and margin below `0.20` gives the linear scale-down
`(prj_pct / 100) * (margin / 0.20)`, also for negative margins. -/
theorem commission_rate_project (m std_pct prj_pct : ℚ) (jt : String)
    (h : pyLower (pyStrip jt) ≠ "standart") :
    (MIN_MARGIN ≤ m → commission_rate (some m) jt std_pct prj_pct = prj_pct / 100) ∧
    (m < MIN_MARGIN →
      commission_rate (some m) jt std_pct prj_pct = (prj_pct / 100) * (m / MIN_MARGIN)) := by
  constructor <;> intro hm
  · simp [commission_rate, h, pct_to_rate, hm]
  · have h2 : ¬ MIN_MARGIN ≤ m := not_le.mpr hm
    have h3 : (0:ℚ) < MIN_MARGIN := by norm_num [MIN_MARGIN]
    simp [commission_rate, h, pct_to_rate, h2, h3]

/-- Witness for C2 at margin `0.10`, job type `"Proje"`, project rate 3:
the scaled-down rate is `0.03 * (0.10 / 0.20) = 0.015`. -/
theorem commission_rate_project_witness :
    commission_rate (some (1/10)) "Proje" 3 3 = 3/200 := by
  have h := (commission_rate_project (1/10) 3 3 "Proje" (by decide)).2
    (by norm_num [MIN_MARGIN])
  rw [h]
  norm_num [MIN_MARGIN]

/-- Case analysis of the discrete factor selection on the realized ratio. -/
lemma factor_select_cases (x : ℚ) :
    ((if (1:ℚ) ≤ x then (1:ℚ) else if 4/5 ≤ x then 1/2 else 0) = 1 ↔ 1 ≤ x) ∧
    ((if (1:ℚ) ≤ x then (1:ℚ) else if 4/5 ≤ x then 1/2 else 0) = 1/2 ↔ (4/5 ≤ x ∧ ¬ 1 ≤ x)) ∧
    ((if (1:ℚ) ≤ x then (1:ℚ) else if 4/5 ≤ x then 1/2 else 0) = 0 ↔ ¬ 4/5 ≤ x) := by
  split_ifs with h1 h2
  · exact ⟨by simp [h1], by norm_num [h1],
      by norm_num [le_trans (show (4:ℚ)/5 ≤ 1 by norm_num) h1]⟩
  · exact ⟨by norm_num [h1], by simp [h1, h2], by norm_num [h2]⟩
  · exact ⟨by norm_num [h1], by norm_num [h2], by simp [h2]⟩

/-- The discrete factor selection only takes the values `0`, `1/2`, `1`. -/
lemma factor_select_mem (x : ℚ) :
    (if (1:ℚ) ≤ x then (1:ℚ) else if 4/5 ≤ x then 1/2 else 0) = 0 ∨
    (if (1:ℚ) ≤ x then (1:ℚ) else if 4/5 ≤ x then 1/2 else 0) = 1/2 ∨
    (if (1:ℚ) ≤ x then (1:ℚ) else if 4/5 ≤ x then 1/2 else 0) = 1 := by
  split_ifs <;> simp

/-- Claim C3: the target factor is always one of `0`, `1/2`, `1`; it is `0`
when the quarter is absent (null or empty, both falsy in the source) or
when no positive target is configured for `(seller, quarter)`; otherwise,
with `ratio = total_sold / target`, it is `1` iff `ratio ≥ 1`, `1/2` iff
`0.8 ≤ ratio < 1`, and `0` iff `ratio < 0.8`. -/
theorem seller_target_factor_spec (seller : String) (quarter : Option String)
    (totals targets : String × String → Option ℚ) (f : ℚ)
    (hf : f = seller_target_factor seller quarter totals targets) :
    (f = 0 ∨ f = 1/2 ∨ f = 1) ∧
    (truthyStr quarter = false → f = 0) ∧
    (∀ q, quarter = some q → truthyStr quarter = true →
      (¬ posTarget (targets (seller, q)) → f = 0) ∧
      (∀ tgt, targets (seller, q) = some tgt → 0 < tgt →
        ((f = 1 ↔ 1 ≤ (totals (seller, q)).getD 0 / tgt) ∧
         (f = 1/2 ↔ (4/5 ≤ (totals (seller, q)).getD 0 / tgt ∧
            ¬ 1 ≤ (totals (seller, q)).getD 0 / tgt)) ∧
         (f = 0 ↔ ¬ 4/5 ≤ (totals (seller, q)).getD 0 / tgt)))) := by
  subst hf
  simp only [seller_target_factor]
  by_cases ht : truthyStr quarter = false
  · simp [ht]
  · rw [if_neg ht]
    refine ⟨?_, fun h => absurd h ht, ?_⟩
    · cases hq : targets (seller, quarter.getD "") with
      | none => simp [hq]
      | some tgt =>
        simp only [hq]
        by_cases h0 : tgt = 0 ∨ tgt ≤ 0
        · simp [h0]
        · have hpos : 0 < tgt := by
            push_neg at h0
            exact h0.2
          rw [if_neg h0, if_pos hpos]
          exact factor_select_mem _
    · intro q hq _
      subst hq
      simp only [Option.getD_some]
      cases htg : targets (seller, q) with
      | none =>
        refine ⟨fun _ => by simp, fun tgt htgt => ?_⟩
        exact absurd htgt (by simp)
      | some tgt =>
        simp only [htg]
        refine ⟨?_, ?_⟩
        · intro hnp
          have h0 : tgt ≤ 0 := by
            by_contra hc
            exact hnp (show posTarget (some tgt) from not_le.mp hc)
          rw [if_pos (Or.inr h0)]
        · intro tgt' htgt' hpos'
          injection htgt' with he
          subst he
          have h0 : ¬ (tgt = 0 ∨ tgt ≤ 0) := by
            push_neg
            exact ⟨ne_of_gt hpos', hpos'⟩
          rw [if_neg h0, if_pos hpos']
          exact factor_select_cases _

/-- Witness for C3: with a target of 500 and totals of 300 for the pair,
the ratio is `0.6 < 0.8` and the factor is `0`. -/
theorem seller_target_factor_spec_witness :
    seller_target_factor "pinar" (some "2025-Q1")
      (fun k => if k = ("pinar", "2025-Q1") then some 300 else none)
      (fun k => if k = ("pinar", "2025-Q1") then some 500 else none) = 0 := by
  have h := (seller_target_factor_spec "pinar" (some "2025-Q1")
      (fun k => if k = ("pinar", "2025-Q1") then some 300 else none)
      (fun k => if k = ("pinar", "2025-Q1") then some 500 else none) _ rfl).2.2
      "2025-Q1" rfl (by decide)
  have h2 := (h.2 500 (by decide) (by norm_num)).2.2
  apply h2.mpr
  norm_num

/-- The `total_cost` field is purchase plus international shipping plus the
six converted secondary-currency components. -/
theorem metrics_total_cost (std_pct prj_pct ovr_pct : ℚ) (r : Sale)
    (totals targets : String × String → Option ℚ) :
    (compute_sale_metrics std_pct prj_pct ovr_pct r totals targets).total_cost
      = (r.purchase_eur).getD 0 + (r.international_shipping_eur).getD 0
        + (eur_from_tl r.ic_nakliye_tl r.local_kur
          + eur_from_tl r.gumruk_vergisi_tl r.local_kur
          + eur_from_tl r.ek_gumruk_tl r.local_kur
          + eur_from_tl r.gumruk_masraf_tl r.local_kur
          + eur_from_tl r.komisyon_tl r.local_kur
          + eur_from_tl r.diger_tl r.local_kur) := rfl

/-- Claim C6: the margin is `profit / sale_price` when the sale price is
positive, and an explicitly absent value — never the number zero — when
the sale price is absent or non-positive (an absent price coalesces to
`0`); and an absent margin makes the commission-rate selection return `0`
(both inside the metrics and for `commission_rate` itself). -/
theorem margin_undefined_spec (std_pct prj_pct ovr_pct : ℚ) (r : Sale)
    (totals targets : String × String → Option ℚ) (M : Metrics)
    (hM : M = compute_sale_metrics std_pct prj_pct ovr_pct r totals targets) :
    (0 < (r.sale_eur).getD 0 → M.margin = some (M.profit / (r.sale_eur).getD 0)) ∧
    ((r.sale_eur).getD 0 ≤ 0 → M.margin = none ∧ M.rate = 0) ∧
    (∀ jt std_pct' prj_pct', commission_rate none jt std_pct' prj_pct' = 0) := by
  subst hM
  refine ⟨?_, ?_, fun jt s p => rfl⟩
  · intro hpos
    rw [metrics_margin, metrics_sale_eur, if_pos hpos]
  · intro hnp
    have hneg : ¬ 0 < (compute_sale_metrics std_pct prj_pct ovr_pct r totals targets).sale_eur := by
      rw [metrics_sale_eur]
      exact not_lt.mpr hnp
    constructor
    · rw [metrics_margin, if_neg hneg]
    · rw [metrics_rate, metrics_margin, if_neg hneg]
      rfl

/-- Claim C7: each secondary-currency component is converted to the
reference currency by dividing by the sale's local rate; a missing
component, a missing rate or a zero rate contributes exactly `0` (all the
functions involved are total, so nothing can throw); and `total_cost`
equals purchase cost plus international shipping plus the sum of the six
converted components. -/
theorem total_cost_spec (std_pct prj_pct ovr_pct : ℚ) (r : Sale)
    (totals targets : String × String → Option ℚ) (M : Metrics)
    (hM : M = compute_sale_metrics std_pct prj_pct ovr_pct r totals targets) :
    M.total_cost = (r.purchase_eur).getD 0 + (r.international_shipping_eur).getD 0
      + (eur_from_tl r.ic_nakliye_tl r.local_kur
        + eur_from_tl r.gumruk_vergisi_tl r.local_kur
        + eur_from_tl r.ek_gumruk_tl r.local_kur
        + eur_from_tl r.gumruk_masraf_tl r.local_kur
        + eur_from_tl r.komisyon_tl r.local_kur
        + eur_from_tl r.diger_tl r.local_kur) ∧
    (∀ tl, r.local_kur = none ∨ r.local_kur = some 0 → eur_from_tl tl r.local_kur = 0) ∧
    (∀ kur, eur_from_tl none kur = 0) ∧
    (∀ t k : ℚ, k ≠ 0 → eur_from_tl (some t) (some k) = t / k) := by
  subst hM
  refine ⟨metrics_total_cost .., ?_, fun kur => by cases kur <;> rfl,
    fun t k hk => by simp [eur_from_tl, hk]⟩
  rintro tl (hk | hk) <;> rw [hk] <;> cases tl <;> simp [eur_from_tl]

/-- The sale of the spec's Scenario A: price 1000, purchase 600, shipping
50, local rate 10, all six TL components 0, standard job, both completion
dates present. -/
def scenarioASale : Sale where
  seller_username := "nilufer"
  job_type := some "Standart"
  collection_done_date := some "2025-01-10"
  delivery_done_date := some "2025-02-10"
  sale_eur := some 1000
  purchase_eur := some 600
  international_shipping_eur := some 50
  local_kur := some 10
  ic_nakliye_tl := some 0
  gumruk_vergisi_tl := some 0
  ek_gumruk_tl := some 0
  gumruk_masraf_tl := some 0
  komisyon_tl := some 0
  diger_tl := some 0

/-- Totals map giving the Scenario A seller 1000 sold in 2025-Q1. -/
def scenarioATotals : String × String → Option ℚ :=
  fun k => if k = ("nilufer", "2025-Q1") then some 1000 else none

/-- Targets map giving the Scenario A seller a 500 target in 2025-Q1, so
the realized ratio is 2 and the target factor is 1. -/
def scenarioATargets : String × String → Option ℚ :=
  fun k => if k = ("nilufer", "2025-Q1") then some 500 else none

/-- Scenario A with the sale price removed. -/
def scenarioNullPrice : Sale := { scenarioASale with sale_eur := none }

/-- Scenario A with a zero local rate and a nonzero TL component. -/
def scenarioKurZero : Sale :=
  { scenarioASale with local_kur := some 0, ic_nakliye_tl := some 100 }

/-- Scenario A total cost evaluates to 650. -/
lemma scenarioA_total_cost :
    (compute_sale_metrics 3 3 1 scenarioASale scenarioATotals scenarioATargets).total_cost
      = 650 := by
  rw [metrics_total_cost]
  norm_num [scenarioASale, eur_from_tl]

/-- Scenario A profit evaluates to 350. -/
lemma scenarioA_profit :
    (compute_sale_metrics 3 3 1 scenarioASale scenarioATotals scenarioATargets).profit
      = 350 := by
  rw [metrics_profit, metrics_sale_eur, scenarioA_total_cost]
  norm_num [scenarioASale]

/-- Scenario A margin evaluates to 0.35. -/
lemma scenarioA_margin :
    (compute_sale_metrics 3 3 1 scenarioASale scenarioATotals scenarioATargets).margin
      = some (35/100) := by
  rw [metrics_margin, metrics_sale_eur, scenarioA_profit]
  norm_num [scenarioASale]

/-- Scenario A is eligible. -/
lemma scenarioA_eligible :
    (compute_sale_metrics 3 3 1 scenarioASale scenarioATotals scenarioATargets).eligible
      = true := by
  rw [metrics_eligible]
  decide

/-- Scenario A is attributed to quarter 2025-Q1. -/
lemma scenarioA_quarter :
    (compute_sale_metrics 3 3 1 scenarioASale scenarioATotals scenarioATargets).quarter
      = some "2025-Q1" := by
  rw [metrics_quarter, metrics_hak_tarih, scenarioA_eligible]
  decide

/-- Scenario A gets target factor 1. -/
lemma scenarioA_factor :
    (compute_sale_metrics 3 3 1 scenarioASale scenarioATotals scenarioATargets).target_factor
      = 1 := by
  rw [metrics_target_factor, scenarioA_quarter]
  have h1 : scenarioATargets ("nilufer", "2025-Q1") = some 500 := by decide
  have h2 : scenarioATotals ("nilufer", "2025-Q1") = some 1000 := by decide
  have ht : ¬ truthyStr (some "2025-Q1") = false := by decide
  simp only [seller_target_factor, if_neg ht, Option.getD_some, scenarioASale, h1, h2]
  norm_num

/-- Scenario A gets the standard rate 0.03. -/
lemma scenarioA_rate :
    (compute_sale_metrics 3 3 1 scenarioASale scenarioATotals scenarioATargets).rate
      = 3/100 := by
  rw [metrics_rate, scenarioA_margin]
  have hjt : pyLower (pyStrip (scenarioASale.job_type.getD "")) = "standart" := by decide
  simp only [commission_rate, hjt, pct_to_rate, MIN_MARGIN]
  norm_num

/-- Scenario A seller commission evaluates to 30. -/
lemma scenarioA_comm :
    (compute_sale_metrics 3 3 1 scenarioASale scenarioATotals scenarioATargets).seller_comm
      = 30 := by
  rw [metrics_seller_comm, scenarioA_eligible, metrics_sale_eur, scenarioA_rate,
    scenarioA_factor]
  norm_num [scenarioASale]

/-- Claim C4: Scenario A — sale price 1000, purchase 600, shipping 50,
local rate 10, all six TL components 0, job type `"Standart"`, both
completion dates present, standard rate 3 percent, target factor 1 —
yields total cost 650, profit 350, margin 0.35, rate 0.03 and seller
commission 30. -/
theorem scenario_a_spec :
    (compute_sale_metrics 3 3 1 scenarioASale scenarioATotals scenarioATargets).total_cost
        = 650 ∧
    (compute_sale_metrics 3 3 1 scenarioASale scenarioATotals scenarioATargets).profit = 350 ∧
    (compute_sale_metrics 3 3 1 scenarioASale scenarioATotals scenarioATargets).margin
        = some (35/100) ∧
    (compute_sale_metrics 3 3 1 scenarioASale scenarioATotals scenarioATargets).target_factor
        = 1 ∧
    (compute_sale_metrics 3 3 1 scenarioASale scenarioATotals scenarioATargets).rate
        = 3/100 ∧
    (compute_sale_metrics 3 3 1 scenarioASale scenarioATotals scenarioATargets).seller_comm
        = 30 :=
  ⟨scenarioA_total_cost, scenarioA_profit, scenarioA_margin, scenarioA_factor,
    scenarioA_rate, scenarioA_comm⟩

/-- Witness for C6 at the Scenario A sale with the price removed: the
margin is absent and the rate is 0. -/
theorem margin_undefined_spec_witness :
    (compute_sale_metrics 3 3 1 scenarioNullPrice scenarioATotals scenarioATargets).margin
        = none ∧
    (compute_sale_metrics 3 3 1 scenarioNullPrice scenarioATotals scenarioATargets).rate
        = 0 :=
  (margin_undefined_spec 3 3 1 scenarioNullPrice scenarioATotals scenarioATargets _ rfl).2.1
    (by simp [scenarioNullPrice])

/-- Witness for C7 at the Scenario A sale with a zero local rate and a
nonzero TL component: the component contributes 0 and the total cost stays
650. -/
theorem total_cost_spec_witness :
    (compute_sale_metrics 3 3 1 scenarioKurZero scenarioATotals scenarioATargets).total_cost
      = 650 := by
  have h := total_cost_spec 3 3 1 scenarioKurZero scenarioATotals scenarioATargets _ rfl
  have hz := fun tl => h.2.1 tl (Or.inr rfl)
  rw [h.1]
  simp only [hz]
  norm_num [scenarioKurZero, scenarioASale]

/-- The reason derivation yields one of the six fixed strings. -/
lemma reason_of_mem (e : Bool) (quarter : Option String) (seller : String)
    (targets : String × String → Option ℚ) (factor : ℚ) (margin : Option ℚ) (jt : String) :
    reason_of e quarter seller targets factor margin jt = reasonNoHak ∨
    reason_of e quarter seller targets factor margin jt = reasonNoQuarter ∨
    reason_of e quarter seller targets factor margin jt = reasonNoTarget ∨
    reason_of e quarter seller targets factor margin jt = reasonBelowTarget ∨
    reason_of e quarter seller targets factor margin jt = reasonMarginLow ∨
    reason_of e quarter seller targets factor margin jt = reasonAccrues := by
  unfold reason_of
  by_cases he : e = false
  · simp [he]
  · rw [if_neg he]
    cases quarter with
    | none => simp
    | some q =>
      cases htg : targets (seller, q) with
      | none => simp [htg]
      | some tgt =>
        simp only [htg]
        by_cases h0 : tgt = 0 ∨ tgt ≤ 0
        · simp [h0]
        · rw [if_neg h0]
          by_cases hf : factor = 0
          · simp [hf]
          · rw [if_neg hf]
            by_cases hb : (isStandartB jt && marginBelowB margin) = true
            · simp [hb]
            · simp [hb]

/-- Characterization of the six reason codes by the precedence conditions. -/
lemma reason_of_cases (e : Bool) (quarter : Option String) (seller : String)
    (targets : String × String → Option ℚ) (factor : ℚ) (margin : Option ℚ) (jt : String) :
    (reason_of e quarter seller targets factor margin jt = reasonNoHak ↔ e = false) ∧
    (reason_of e quarter seller targets factor margin jt = reasonNoQuarter ↔
      (e = true ∧ quarter = none)) ∧
    (reason_of e quarter seller targets factor margin jt = reasonNoTarget ↔
      (e = true ∧ ∃ q, quarter = some q ∧ ¬ posTarget (targets (seller, q)))) ∧
    (reason_of e quarter seller targets factor margin jt = reasonBelowTarget ↔
      (e = true ∧ ∃ q, quarter = some q ∧ posTarget (targets (seller, q)) ∧ factor = 0)) ∧
    (reason_of e quarter seller targets factor margin jt = reasonMarginLow ↔
      (e = true ∧ ∃ q, quarter = some q ∧ posTarget (targets (seller, q)) ∧ factor ≠ 0 ∧
        (isStandartB jt && marginBelowB margin) = true)) ∧
    (reason_of e quarter seller targets factor margin jt = reasonAccrues ↔
      (e = true ∧ ∃ q, quarter = some q ∧ posTarget (targets (seller, q)) ∧ factor ≠ 0 ∧
        ¬ (isStandartB jt && marginBelowB margin) = true)) := by
  unfold reason_of
  cases e with
  | false => simp +decide
  | true =>
    cases quarter with
    | none => simp +decide
    | some q =>
      cases htg : targets (seller, q) with
      | none => simp +decide [htg, posTarget]
      | some tgt =>
        simp only [htg]
        by_cases h0 : tgt = 0 ∨ tgt ≤ 0
        · have hle : ¬ (0:ℚ) < tgt := by
            rcases h0 with h | h
            · rw [h]
              exact lt_irrefl 0
            · exact not_lt.mpr h
          simp +decide [htg, h0, posTarget, hle]
        · have hpos : (0:ℚ) < tgt := by
            push_neg at h0
            exact h0.2
          rw [if_neg h0]
          by_cases hf : factor = 0
          · simp +decide [htg, hf, posTarget, hpos]
          · rw [if_neg hf]
            by_cases hb : (isStandartB jt && marginBelowB margin) = true
            · simp +decide [htg, hb, hf, posTarget, hpos]
            · simp +decide [htg, hb, hf, posTarget, hpos]

/-- Claim C8: exactly one reason code is produced per sale, out of the six
fixed strings, by precedence: not eligible; eligible but no quarter;
quarter but no positive target; target factor 0; standard job with margin
present and below 20 percent; otherwise commission accrues. -/
theorem reason_code_spec (std_pct prj_pct ovr_pct : ℚ) (r : Sale)
    (totals targets : String × String → Option ℚ) (M : Metrics)
    (hM : M = compute_sale_metrics std_pct prj_pct ovr_pct r totals targets) :
    (M.reason = reasonNoHak ∨ M.reason = reasonNoQuarter ∨ M.reason = reasonNoTarget ∨
      M.reason = reasonBelowTarget ∨ M.reason = reasonMarginLow ∨ M.reason = reasonAccrues) ∧
    (M.reason = reasonNoHak ↔ M.eligible = false) ∧
    (M.reason = reasonNoQuarter ↔ (M.eligible = true ∧ M.quarter = none)) ∧
    (M.reason = reasonNoTarget ↔
      (M.eligible = true ∧ ∃ q, M.quarter = some q ∧
        ¬ posTarget (targets (r.seller_username, q)))) ∧
    (M.reason = reasonBelowTarget ↔
      (M.eligible = true ∧ ∃ q, M.quarter = some q ∧
        posTarget (targets (r.seller_username, q)) ∧ M.target_factor = 0)) ∧
    (M.reason = reasonMarginLow ↔
      (M.eligible = true ∧ ∃ q, M.quarter = some q ∧
        posTarget (targets (r.seller_username, q)) ∧ M.target_factor ≠ 0 ∧
        (isStandartB (r.job_type.getD "") && marginBelowB M.margin) = true)) ∧
    (M.reason = reasonAccrues ↔
      (M.eligible = true ∧ ∃ q, M.quarter = some q ∧
        posTarget (targets (r.seller_username, q)) ∧ M.target_factor ≠ 0 ∧
        ¬ (isStandartB (r.job_type.getD "") && marginBelowB M.margin) = true)) := by
  subst hM
  rw [metrics_reason]
  have h := reason_of_cases
    (compute_sale_metrics std_pct prj_pct ovr_pct r totals targets).eligible
    (compute_sale_metrics std_pct prj_pct ovr_pct r totals targets).quarter
    r.seller_username targets
    (compute_sale_metrics std_pct prj_pct ovr_pct r totals targets).target_factor
    (compute_sale_metrics std_pct prj_pct ovr_pct r totals targets).margin
    (r.job_type.getD "")
  exact ⟨reason_of_mem .., h.1, h.2.1, h.2.2.1, h.2.2.2.1, h.2.2.2.2.1, h.2.2.2.2.2⟩

/-- Witness for C8: the Scenario A sale gets the accrual reason. -/
theorem reason_code_spec_witness :
    (compute_sale_metrics 3 3 1 scenarioASale scenarioATotals scenarioATargets).reason
      = reasonAccrues := by
  have h := (reason_code_spec 3 3 1 scenarioASale scenarioATotals scenarioATargets
    _ rfl).2.2.2.2.2.2
  apply h.mpr
  refine ⟨scenarioA_eligible, "2025-Q1", scenarioA_quarter, by decide, ?_, ?_⟩
  · rw [scenarioA_factor]
    norm_num
  · rw [scenarioA_margin]
    have hmb : marginBelowB (some ((35:ℚ)/100)) = false := by
      simp only [marginBelowB, decide_eq_false_iff_not, MIN_MARGIN]
      norm_num
    simp [hmb]

/-- The eligibility conjunction of the aggregator filter. -/
lemma attributed_eligible {s : Sale} {u q : String} (h : attributedTo s u q = true) :
    (truthyStr s.collection_done_date && truthyStr s.delivery_done_date) = true := by
  simp only [attributedTo, Bool.and_eq_true] at h
  simp [h.1.1.1.1, h.1.1.1.2]

/-- Claim C9: for a `(seller, quarter)` pair such that every sale the
aggregator attributes to the pair has target factor 1 and the same rate
`R`, the sum of the per-sale seller commissions over the attributed sales
equals `R` times the aggregator's total for the pair. -/
theorem commission_roundtrip (std_pct prj_pct ovr_pct : ℚ)
    (totals targets : String × String → Option ℚ) (sales : List Sale) (u q : String) (R : ℚ)
    (h : ∀ s ∈ sales, attributedTo s u q = true →
      (compute_sale_metrics std_pct prj_pct ovr_pct s totals targets).rate = R ∧
      (compute_sale_metrics std_pct prj_pct ovr_pct s totals targets).target_factor = 1) :
    ((sales.filter fun s => attributedTo s u q).map
        fun s => (compute_sale_metrics std_pct prj_pct ovr_pct s totals targets).seller_comm).sum
      = R * fetch_total sales u q := by
  induction sales with
  | nil => simp [fetch_total]
  | cons s rest ih =>
    have hrest := fun s' hs' => h s' (List.mem_cons_of_mem _ hs')
    unfold fetch_total at ih ⊢
    by_cases ha : attributedTo s u q = true
    · obtain ⟨hr, hf⟩ := h s (List.mem_cons_self _ _) ha
      have he : (compute_sale_metrics std_pct prj_pct ovr_pct s totals targets).eligible
          = true := by
        rw [metrics_eligible]
        exact attributed_eligible ha
      have hcomm : (compute_sale_metrics std_pct prj_pct ovr_pct s totals targets).seller_comm
          = (s.sale_eur).getD 0 * R := by
        rw [metrics_seller_comm, metrics_sale_eur, hr, hf, he]
        simp
      simp only [List.filter_cons, ha, if_true, List.map_cons, List.sum_cons]
      rw [hcomm, ih hrest]
      ring
    · have ha' : attributedTo s u q = false := by
        simpa using ha
      simp only [List.filter_cons, ha', Bool.false_eq_true, if_false]
      exact ih hrest

/-- Witness for C9: the singleton list containing the Scenario A sale,
where the rate is 0.03 and the factor 1, sums to `0.03` times the
aggregator total. -/
theorem commission_roundtrip_witness :
    (([scenarioASale].filter fun s => attributedTo s "nilufer" "2025-Q1").map
        fun s => (compute_sale_metrics 3 3 1 s scenarioATotals scenarioATargets).seller_comm).sum
      = (3/100) * fetch_total [scenarioASale] "nilufer" "2025-Q1" :=
  commission_roundtrip 3 3 1 scenarioATotals scenarioATargets [scenarioASale]
    "nilufer" "2025-Q1" (3/100)
    (by
      intro s hs _
      rcases List.mem_singleton.mp hs with rfl
      exact ⟨scenarioA_rate, scenarioA_factor⟩)

/-- Claim C10: a sale with both completion dates present but a null sale
price is excluded entirely from the aggregator: it is not attributed to
any `(seller, quarter)` pair, it contributes nothing to an existing group,
and on its own it produces no group at all. -/
theorem null_price_excluded (sales : List Sale) (s : Sale) (u q : String)
    (h1 : truthyStr s.collection_done_date = true)
    (h2 : truthyStr s.delivery_done_date = true)
    (h3 : s.sale_eur = none) :
    attributedTo s u q = false ∧
    fetch_totalOpt (s :: sales) u q = fetch_totalOpt sales u q ∧
    fetch_totalOpt [s] u q = none := by
  have ha : attributedTo s u q = false := by
    simp [attributedTo, h3]
  refine ⟨ha, ?_, ?_⟩
  · simp [fetch_totalOpt, fetch_total, List.filter_cons, ha]
  · simp [fetch_totalOpt, List.filter_cons, ha]

/-- Witness for C10: the Scenario A sale without a price is unattributed
and alone produces an empty totals map. -/
theorem null_price_excluded_witness :
    attributedTo scenarioNullPrice "nilufer" "2025-Q1" = false ∧
    fetch_totalOpt [scenarioNullPrice] "nilufer" "2025-Q1" = none := by
  have h := null_price_excluded [] scenarioNullPrice "nilufer" "2025-Q1"
    (by decide) (by decide) rfl
  exact ⟨h.1, h.2.2⟩

/-- One comparison step of `lexLtChars` as a proposition. -/
lemma step_iff {c d : Char} {rest : Bool} :
    ((if c < d then true else if d < c then false else rest) = true)
      ↔ (c < d ∨ (c = d ∧ rest = true)) := by
  by_cases h1 : c < d
  · simp [h1]
  · by_cases h2 : d < c
    · simp only [if_neg h1, if_pos h2]
      constructor
      · intro h
        exact absurd h (by simp)
      · rintro (h | ⟨rfl, _⟩)
        · exact absurd h h1
        · exact absurd h2 h1
    · have hcd : c = d := le_antisymm (not_lt.mp h2) (not_lt.mp h1)
      simp [h1, h2, hcd]

/-- `digitChar` only depends on the argument mod 10. -/
lemma digitChar_mod (n : ℕ) : digitChar n = digitChar (n % 10) := by
  unfold digitChar
  congr 1
  omega

/-- Order of digit characters mirrors the order of the digits. -/
lemma digitChar_lt_iff (x y : ℕ) : (digitChar x < digitChar y) ↔ x % 10 < y % 10 := by
  rw [digitChar_mod x, digitChar_mod y]
  have h : ∀ a < 10, ∀ b < 10, (digitChar a < digitChar b ↔ a < b) := by decide
  exact h _ (by omega) _ (by omega)

/-- Equality of digit characters mirrors equality of the digits. -/
lemma digitChar_eq_iff (x y : ℕ) : (digitChar x = digitChar y) ↔ x % 10 = y % 10 := by
  rw [digitChar_mod x, digitChar_mod y]
  have h : ∀ a < 10, ∀ b < 10, (digitChar a = digitChar b ↔ a = b) := by decide
  exact h _ (by omega) _ (by omega)

/-- Lexicographic comparison of a two-digit block, continued by `P`. -/
lemma two_digit_block (x y : ℕ) (P : Prop) (hx : x ≤ 99) (hy : y ≤ 99) :
    (x / 10 % 10 < y / 10 % 10 ∨ (x / 10 % 10 = y / 10 % 10 ∧
      (x % 10 < y % 10 ∨ (x % 10 = y % 10 ∧ P))))
      ↔ (x < y ∨ (x = y ∧ P)) := by
  by_cases hP : P
  · simp only [hP, and_true]
    omega
  · simp only [hP, and_false, or_false]
    omega

/-- Lexicographic comparison of a four-digit block, continued by `P`. -/
lemma four_digit_block (x y : ℕ) (P : Prop) (hx : x ≤ 9999) (hy : y ≤ 9999) :
    (x / 1000 % 10 < y / 1000 % 10 ∨ (x / 1000 % 10 = y / 1000 % 10 ∧
      (x / 100 % 10 < y / 100 % 10 ∨ (x / 100 % 10 = y / 100 % 10 ∧
        (x / 10 % 10 < y / 10 % 10 ∨ (x / 10 % 10 = y / 10 % 10 ∧
          (x % 10 < y % 10 ∨ (x % 10 = y % 10 ∧ P))))))))
      ↔ (x < y ∨ (x = y ∧ P)) := by
  have e1 : x / 1000 % 10 = x / 1000 := by omega
  have e2 : x / 100 % 10 = x / 100 - 10 * (x / 1000) := by omega
  have e3 : x / 10 % 10 = x / 10 - 10 * (x / 100) := by omega
  have e4 : x % 10 = x - 10 * (x / 10) := by omega
  have f1 : y / 1000 % 10 = y / 1000 := by omega
  have f2 : y / 100 % 10 = y / 100 - 10 * (y / 1000) := by omega
  have f3 : y / 10 % 10 = y / 10 - 10 * (y / 100) := by omega
  have f4 : y % 10 = y - 10 * (y / 10) := by omega
  rw [e1, e2, e3, e4, f1, f2, f3, f4]
  by_cases hP : P
  · simp only [hP, and_true]
    omega
  · simp only [hP, and_false, or_false]
    omega

/-- Code-point comparison of ISO renderings is chronological comparison. -/
lemma lexLt_isoChars_iff (a b : YMDDate) (ha : validYMD a) (hb : validYMD b) :
    (lexLtChars (isoChars a) (isoChars b) = true) ↔ chronLt a b := by
  obtain ⟨ay, am, ad⟩ := a
  obtain ⟨by', bm, bd⟩ := b
  simp only [validYMD] at ha hb
  obtain ⟨ha1, ha2, ha3, ha4, ha5⟩ := ha
  obtain ⟨hb1, hb2, hb3, hb4, hb5⟩ := hb
  have hdash : ¬ (('-' : Char) < '-') := by decide
  simp only [isoChars, lexLtChars]
  simp only [step_iff]
  simp only [digitChar_lt_iff, digitChar_eq_iff, hdash, Bool.false_eq_true, false_or,
    true_and, eq_self_iff_true]
  rw [four_digit_block _ _ _ ha1 hb1, two_digit_block _ _ _ (by omega) (by omega),
    two_digit_block _ _ _ (by omega) (by omega)]
  simp only [chronLt, and_false, or_false]

/-- Python string `max` on ISO renderings picks the chronologically later
date. -/
lemma pyMax_toIso (a b : YMDDate) (ha : validYMD a) (hb : validYMD b) :
    pyMax (toIso a) (toIso b) = toIso (if chronLt a b then b else a) := by
  by_cases h : chronLt a b
  · have hlt : strLt (toIso a) (toIso b) = true :=
      (lexLt_isoChars_iff a b ha hb).mpr h
    rw [pyMax, hlt, if_pos rfl, if_pos h]
  · have hlt : ¬ strLt (toIso a) (toIso b) = true := fun hc =>
      h ((lexLt_isoChars_iff a b ha hb).mp hc)
    rw [pyMax, if_neg (by simpa using hlt), if_neg h]

/-- ISO renderings are truthy (non-null, non-empty). -/
lemma truthy_toIso (a : YMDDate) : truthyStr (some (toIso a)) = true := by
  have hne : toIso a ≠ "" := by
    intro hc
    have h2 : isoChars a = [] := congrArg String.data hc
    simp [isoChars] at h2
  have hie : (toIso a).isEmpty = false := by
    rw [Bool.eq_false_iff]
    intro hc
    exact hne ((String.isEmpty_iff (toIso a)).mp hc)
  simp [truthyStr, hie]

/-- Digit characters pass the digit test. -/
lemma isDigit_digitChar (n : ℕ) : isDigitChar (digitChar n) = true := by
  rw [digitChar_mod]
  have h : ∀ a < 10, isDigitChar (digitChar a) = true := by decide
  exact h _ (by omega)

/-- `charDigit` recovers the digit from its character. -/
lemma charDigit_digitChar (n : ℕ) : charDigit (digitChar n) = n % 10 := by
  rw [digitChar_mod]
  have h : ∀ a < 10, charDigit (digitChar a) = a := by decide
  rw [h _ (by omega)]

/-- Parsing the ISO rendering of a valid date recovers the date. -/
lemma parse_toIso (a : YMDDate) (ha : validYMD a) :
    parseIsoYMD (toIso a) = some (a.y, a.m, a.d) := by
  obtain ⟨ay, am, ad⟩ := a
  simp only [validYMD] at ha
  obtain ⟨h1, h2, h3, h4, h5⟩ := ha
  have hy : 1000 * (ay / 1000 % 10) + 100 * (ay / 100 % 10) + 10 * (ay / 10 % 10) + ay % 10
      = ay := by omega
  have hm : 10 * (am / 10 % 10) + am % 10 = am := by omega
  have hd : 10 * (ad / 10 % 10) + ad % 10 = ad := by omega
  simp only [parseIsoYMD, toIso, isoChars, isDigit_digitChar, charDigit_digitChar,
    Bool.and_self, Bool.and_true, Bool.true_and, beq_self_eq_true, if_true]
  rw [hy, hm, hd]
  have hcond : (decide (1 ≤ am) && decide (am ≤ 12) && decide (1 ≤ ad) && decide (ad ≤ 31))
      = true := by
    simp only [Bool.and_eq_true, decide_eq_true_eq]
    omega
  rw [if_pos hcond]

/-- Quarter derivation on the ISO rendering of a valid date. -/
lemma quarter_toIso (a : YMDDate) (ha : validYMD a) :
    quarter_from_iso (some (toIso a))
      = some (toString a.y ++ "-Q" ++ toString ((a.m - 1) / 3 + 1)) := by
  rw [quarter_from_iso]
  rw [if_neg (by simp [truthy_toIso a])]
  simp only [Option.getD_some, parse_toIso a ha]

/-- Claim C5: for an eligible sale (both completion dates present, here as
ISO renderings of valid dates), the attribution date is the
chronologically later of the two dates (either one when they are equal),
and the derived quarter is the year, `"-Q"`, and the ceiling of
month over 3 (`(m + 3 - 1) / 3` in natural division). -/
theorem attribution_date_spec (a b : YMDDate) (ha : validYMD a) (hb : validYMD b) :
    later_date (some (toIso a)) (some (toIso b))
        = some (toIso (if chronLt a b then b else a)) ∧
    quarter_from_iso (later_date (some (toIso a)) (some (toIso b)))
        = some (toString (if chronLt a b then b else a).y ++ "-Q"
            ++ toString (((if chronLt a b then b else a).m + 3 - 1) / 3)) := by
  have hta := truthy_toIso a
  have htb := truthy_toIso b
  have hld : later_date (some (toIso a)) (some (toIso b))
      = some (pyMax (toIso a) (toIso b)) := by
    unfold later_date
    rw [if_neg (by simp [hta]), if_neg (by simp [htb]), if_neg (by simp [hta])]
    rfl
  have hvc : validYMD (if chronLt a b then b else a) := by
    by_cases h : chronLt a b
    · rw [if_pos h]
      exact hb
    · rw [if_neg h]
      exact ha
  constructor
  · rw [hld, pyMax_toIso a b ha hb]
  · rw [hld, pyMax_toIso a b ha hb, quarter_toIso _ hvc]
    have hm : ((if chronLt a b then b else a).m - 1) / 3 + 1
        = ((if chronLt a b then b else a).m + 3 - 1) / 3 := by
      have h1 : 1 ≤ (if chronLt a b then b else a).m := hvc.2.1
      omega
    rw [hm]

/-- Witness for C5 at the concrete dates 2025-01-10 and 2025-02-10: the
later date is 2025-02-10 and the quarter is 2025-Q1. -/
theorem attribution_date_spec_witness :
    later_date (some "2025-01-10") (some "2025-02-10") = some "2025-02-10" ∧
    quarter_from_iso (some "2025-02-10") = some "2025-Q1" := by
  have h := attribution_date_spec ⟨2025, 1, 10⟩ ⟨2025, 2, 10⟩ (by decide) (by decide)
  have e1 : toIso ⟨2025, 1, 10⟩ = "2025-01-10" := by decide
  have e2 : toIso ⟨2025, 2, 10⟩ = "2025-02-10" := by decide
  have hch : chronLt ⟨2025, 1, 10⟩ ⟨2025, 2, 10⟩ := by decide
  rw [e1, e2, if_pos hch, e2] at h
  refine ⟨h.1, ?_⟩
  have h2 := h.2
  rw [h.1] at h2
  rw [h2]
  decide

end Primapp
